import Mathlib

/-!
Shallow embedding of the DroneBridge DLSE Commercial Support Suite
(`DroneBridgeCommercialSupportSuite.py` and `batch_install_dlse_allinone.py`)
and proofs about the frozen claims over it.

Conventions of the embedding:
* Python byte strings are `List Nat` (each entry one byte value).
* Python strings are Lean `String`; character work goes through `String.data`
  with structurally recursive helpers so every definition evaluates by kernel
  reduction.
* External collaborators (the RSA-PSS signature check of the `cryptography`
  package, serial and network transports, the filesystem) are modelled as
  explicit inputs: a boolean verification oracle and option-valued outcomes.
* Fallible Python code that returns `None` on error becomes `Option`.
-/

/-! ## Python value semantics

`db_get_dlse_lic_via_serial` tests the result of `db_dlse_validate_license`
with `if not ...` although that function returns a `(bool, dict | None)`
tuple.  To embed that call site faithfully we model Python truthiness. -/

/-- A fragment of Python's value universe, enough for the values that the
suite's truthiness tests are applied to. -/
inductive PyVal where
  | vBool : Bool → PyVal
  | vNone : PyVal
  | vInt : Int → PyVal
  | vStr : String → PyVal
  | vTuple : List PyVal → PyVal
  | vDict : List (String × PyVal) → PyVal

/-- Python truthiness: `False`, `None`, `0`, and empty containers are falsy;
a nonempty tuple is always truthy. -/
def pyTruthy : PyVal → Bool
  | .vBool b => b
  | .vNone => false
  | .vInt i => i != 0
  | .vStr s => !s.isEmpty
  | .vTuple es => !es.isEmpty
  | .vDict es => !es.isEmpty

/-! ## Bytes, little-endian codecs and base64 (`struct`, `base64` modules) -/

/-- Little-endian interpretation of a byte list as an unsigned number
(`struct.unpack` with `<`). -/
def leNat (bs : List Nat) : Nat :=
  bs.foldr (fun b acc => b % 256 + 256 * acc) 0

/-- `struct.unpack("<I", ·)`: unsigned 32-bit little-endian. -/
def leU32 (bs : List Nat) : Nat := leNat bs

/-- `struct.unpack("<q", ·)`: signed 64-bit little-endian (two's complement). -/
def leI64 (bs : List Nat) : Int :=
  let n := leNat bs
  if n < 2 ^ 63 then (n : Int) else (n : Int) - 2 ^ 64

/-- Little-endian encoding of a number into `w` bytes (`struct.pack`). -/
def natToLE : Nat → Nat → List Nat
  | 0, _ => []
  | w + 1, n => n % 256 :: natToLE w (n / 256)

/-- `struct.pack("<I", ·)`. -/
def u32ToLE (n : Nat) : List Nat := natToLE 4 n

/-- `struct.pack("<q", ·)`: the value reduced modulo `2^64`. -/
def i64ToLE (i : Int) : List Nat := natToLE 8 (i % 2 ^ 64).toNat

/-- The standard base64 alphabet as a character table. -/
def base64AlphabetChars : List Char :=
  "ABCDEFGHIJKLMNOPQRSTUVWXYZabcdefghijklmnopqrstuvwxyz0123456789+/".data

/-- One 6-bit group to its base64 character. -/
def b64Char (n : Nat) : Char := base64AlphabetChars.getD n 'A'

/-- Character list of the base64 encoding of a byte list
(`base64.b64encode`), with `=` padding. -/
def base64Chars : List Nat → List Char
  | [] => []
  | [a] =>
    let a := a % 256
    [b64Char (a / 4), b64Char (a % 4 * 16), '=', '=']
  | [a, b] =>
    let a := a % 256
    let b := b % 256
    [b64Char (a / 4), b64Char (a % 4 * 16 + b / 16), b64Char (b % 16 * 4), '=']
  | a :: b :: c :: rest =>
    let a := a % 256
    let b := b % 256
    let c := c % 256
    b64Char (a / 4) :: b64Char (a % 4 * 16 + b / 16) ::
      b64Char (b % 16 * 4 + c / 64) :: b64Char (c % 64) :: base64Chars rest

/-- `base64.b64encode(bytes).decode('utf-8')`. -/
def base64Encode (bs : List Nat) : String := (base64Chars bs).asString

/-! ## License validation (`db_dlse_validate_license`) -/

/-- The `license_info` dictionary built on a successful signature check. -/
structure LicenseInfo where
  activation_key_b64 : String
  license_type : Nat
  valid_till : Int
  data_to_verify_b64 : String
deriving DecidableEq, Repr

/-- The activation-key field of a license file: everything before the fixed
524-byte tail (4-byte type, 8-byte timestamp, 512-byte signature). -/
def licActivationKey (license_data : List Nat) : List Nat :=
  license_data.take (license_data.length - 524)

/-- The `license_type` field (`<I` at offset `len - 524`). -/
def licType (license_data : List Nat) : Nat :=
  leU32 ((license_data.drop (license_data.length - 524)).take 4)

/-- The `valid_till_timestamp` field (`<q` at offset `len - 520`). -/
def licValidTill (license_data : List Nat) : Int :=
  leI64 ((license_data.drop (license_data.length - 520)).take 8)

/-- The 512-byte signature tail of a license file. -/
def licSignature (license_data : List Nat) : List Nat :=
  license_data.drop (license_data.length - 512)

/-- `data_to_verify`: the re-packed `(activation_key, license_type,
valid_till)` triple, exactly as `struct.pack(f"<{n}sIq", ...)` rebuilds it. -/
def licDataToVerify (license_data : List Nat) : List Nat :=
  licActivationKey license_data ++ u32ToLE (licType license_data) ++
    i64ToLE (licValidTill license_data)

/-- `db_dlse_validate_license` for the byte content of a license file.
The RSA-PSS check (`public_key.verify` with the trusted key of
`resources/pubkey_DLSE.pem`) is the oracle `verify payload signature`;
`InvalidSignature` makes the source return `(False, None)`, so the oracle
returning `false` does here too.  Lengths of at most 524 bytes leave no room
for an activation key (`activation_key_len <= 0`) and yield `(False, None)`
("Invalid license file format").  If `match_activation_key` is supplied and
differs from the base64 of the embedded key, the result is
`(False, license_info)`.  All error paths of the source are returns, never
uncaught exceptions, so the embedding is a total function. -/
def db_dlse_validate_license (verify : List Nat → List Nat → Bool)
    (license_data : List Nat) (match_activation_key : Option String) :
    Bool × Option LicenseInfo :=
  if license_data.length ≤ 524 then (false, none)
  else
    let activation_key := licActivationKey license_data
    if verify (licDataToVerify license_data) (licSignature license_data) then
      let license_info : LicenseInfo :=
        { activation_key_b64 := base64Encode activation_key
          license_type := licType license_data
          valid_till := licValidTill license_data
          data_to_verify_b64 := base64Encode (licDataToVerify license_data) }
      match match_activation_key with
      | some m =>
        if base64Encode activation_key ≠ m then (false, some license_info)
        else (true, some license_info)
      | none => (true, some license_info)
    else (false, none)

/-- The `license_info` dictionary as a Python value (for truthiness tests). -/
def licenseInfoPy : Option LicenseInfo → PyVal
  | none => .vNone
  | some i =>
    .vDict [("activation_key_b64", .vStr i.activation_key_b64),
            ("license_type", .vInt i.license_type),
            ("valid_till", .vInt i.valid_till),
            ("data_to_verify", .vStr i.data_to_verify_b64)]

/-! ## Supported chips and release binary folders -/

/-- The `DLSESupportedChips` enumeration. -/
inductive DLSESupportedChips where
  | ESP32C3
  | ESP32C5
  | ESP32C6
deriving DecidableEq, Repr

/-- The chip id each enumeration member names. -/
def DLSESupportedChips.value : DLSESupportedChips → Int
  | .ESP32C3 => 5
  | .ESP32C5 => 23
  | .ESP32C6 => 13

/-- `[c.value for c in DLSESupportedChips]`, in declaration order. -/
def supportedChipIds : List Int :=
  [DLSESupportedChips.ESP32C3.value, DLSESupportedChips.ESP32C5.value,
   DLSESupportedChips.ESP32C6.value]

/-- `db_get_bin_folder`: release-binary folder for a chip id.  The source
returns the sentinel `0` for unsupported ids, embedded as `none`.  Note the
id 13 branch returns `DLSEBinFolderNames["C5_folder"]`. -/
def db_get_bin_folder (chip_id : Int) : Option String :=
  if chip_id = 5 then some "esp32c3_generic"
  else if chip_id = 13 then some "esp32c5_generic"
  else if chip_id = 23 then some "esp32c5_generic"
  else none

/-! ## String helpers

Structurally recursive equivalents of the Python string operations the suite
uses, working on `String.data` so that all of them evaluate by kernel
reduction. -/

/-- Splitting a character list at every occurrence of `sep`
(`str.split(sep)` semantics: preserves empty fields). -/
def charSplitOnAux (sep : Char) : List Char → List Char → List (List Char)
  | acc, [] => [acc.reverse]
  | acc, c :: cs =>
    if c = sep then acc.reverse :: charSplitOnAux sep [] cs
    else charSplitOnAux sep (c :: acc) cs

/-- `s.split(sep)` for a one-character separator. -/
def strSplitOn (s : String) (sep : Char) : List String :=
  (charSplitOnAux sep [] s.data).map List.asString

/-- `sep in s` for a one-character needle. -/
def strContains (s : String) (c : Char) : Bool := s.data.contains c

/-- `len(s)`. -/
def strLen (s : String) : Nat := s.data.length

/-- `s.rstrip(chars)` for a character class `p`. -/
def strDropRightWhile (s : String) (p : Char → Bool) : String :=
  ((s.data.reverse.dropWhile p).reverse).asString

/-- The whitespace class of Python's `str.strip()` (ASCII part). -/
def isPySpace (c : Char) : Bool :=
  c = ' ' || c = '\t' || c = '\n' || c = '\r' || c = Char.ofNat 11 || c = Char.ofNat 12

/-- `s.strip()`. -/
def pyStrip (s : String) : String :=
  (((s.data.dropWhile isPySpace).reverse.dropWhile isPySpace).reverse).asString

/-! ## IP address validation (`validate_ip`, `ipaddress.ip_address`) -/

/-- Decimal value of a digit list. -/
def decimalVal (l : List Char) : Nat :=
  l.foldl (fun a c => a * 10 + (c.toNat - 48)) 0

/-- One dotted-quad octet as `ipaddress` accepts it: one to three ASCII
digits, no leading zero except `"0"` itself, value at most 255. -/
def isIPv4Octet (s : String) : Bool :=
  let l := s.data
  decide (1 ≤ l.length) && decide (l.length ≤ 3) && l.all Char.isDigit &&
    (decide (l.length = 1) || decide (l.headD '0' ≠ '0')) &&
    decide (decimalVal l ≤ 255)

/-- `ipaddress.IPv4Address` acceptance: exactly four valid octets. -/
def isIPv4 (s : String) : Bool :=
  let parts := strSplitOn s '.'
  decide (parts.length = 4) && parts.all isIPv4Octet

/-- ASCII hex digit. -/
def isHexDigitChar (c : Char) : Bool :=
  c.isDigit || ('a' ≤ c && c ≤ 'f') || ('A' ≤ c && c ≤ 'F')

/-- One IPv6 hextet: one to four ASCII hex digits. -/
def isHextet (s : String) : Bool :=
  let l := s.data
  decide (1 ≤ l.length) && decide (l.length ≤ 4) && l.all isHexDigitChar

/-- The colon-part check of `ipaddress.IPv6Address._ip_int_from_string`:
at most one empty interior part (the `::`), a leading or trailing empty part
only as half of a `::` at the very edge, at least one hextet skipped when a
`::` is present, exactly eight hextets otherwise. -/
def ipv6CheckParts (parts : List String) : Bool :=
  let n := parts.length
  let interior := (List.range n).filter
    (fun i => decide (0 < i) && decide (i < n - 1) && decide (parts.getD i "x" = ""))
  match interior with
  | [] =>
    decide (n = 8) && decide (parts.getD 0 "" ≠ "") &&
      decide (parts.getLastD "" ≠ "") && parts.all isHextet
  | [k] =>
    let headEmpty := decide (parts.getD 0 "x" = "")
    let lastEmpty := decide (parts.getLastD "x" = "")
    (!headEmpty || decide (k = 1)) && (!lastEmpty || decide (n - k - 1 = 1)) &&
      (let hi := if headEmpty then 0 else k
       let lo := if lastEmpty then 0 else n - k - 1
       decide (hi + lo ≤ 7) && (parts.take hi).all isHextet &&
         (parts.drop (n - lo)).all isHextet)
  | _ => false

/-- `ipaddress.IPv6Address` acceptance without a zone: at least three colon
parts, an optional embedded dotted quad in the last part standing for two
hextets, at most nine parts in all. -/
def isIPv6Addr (addr : String) : Bool :=
  let parts0 := strSplitOn addr ':'
  if parts0.length < 3 then false
  else
    let lastPart := parts0.getLastD ""
    if strContains lastPart '.' then
      isIPv4 lastPart &&
        (let parts := parts0.dropLast ++ ["0", "0"]
         decide (parts.length ≤ 9) && ipv6CheckParts parts)
    else decide (parts0.length ≤ 9) && ipv6CheckParts parts0

/-- `ipaddress.IPv6Address` acceptance: at most one `%`, and a nonempty zone
after it when present. -/
def isIPv6 (s : String) : Bool :=
  match strSplitOn s '%' with
  | [addr] => isIPv6Addr addr
  | [addr, zone] => decide (zone ≠ "") && isIPv6Addr addr
  | _ => false

/-- `validate_ip`: `ipaddress.ip_address(s)` succeeds for an IPv4 or an IPv6
literal, `ValueError` is caught and returns `False`. -/
def validate_ip (s : String) : Bool := isIPv4 s || isIPv6 s

example : validate_ip "192.168.50.10" = true := by decide
example : validate_ip "192.168.50.999" = false := by decide
example : validate_ip "192.168.50.300" = false := by decide
example : validate_ip "01.2.3.4" = false := by decide
example : validate_ip "::1" = true := by decide
example : validate_ip "1:2:3:4:5:6:7::" = true := by decide
example : validate_ip "1:2:3:4:5:6:7:8::" = false := by decide
example : validate_ip "::ffff:192.168.1.1" = true := by decide
example : validate_ip "fe80::1%eth0" = true := by decide
example : validate_ip "fe80::1%" = false := by decide
example : validate_ip "1::2::3" = false := by decide
example : validate_ip ":::" = false := by decide
example : validate_ip "3" = false := by decide
example : validate_ip "999.999.999.999" = false := by decide
example : validate_ip "" = false := by decide
example : validate_ip "1:2:3:4:5:6:192.168.1.1" = true := by decide
example : validate_ip "12345::" = false := by decide
example : validate_ip "ABCD:ef01::" = true := by decide
example : validate_ip ":1::2" = false := by decide

/-! ## Parameter rows and `db_csv_update_parameters` -/

/-- One data row of a settings CSV file (columns `key,type,encoding,value`),
as `csv.DictReader` hands it to the suite. -/
structure CsvRow where
  key : String
  type : String
  encoding : String
  value : String
deriving DecidableEq, Repr

/-- The last-octet substitution of `db_csv_update_parameters`:
`ip_parts = value.split('.')`, `ip_parts[-1] = str(_index)`,
`'.'.join(ip_parts)`. -/
def ipSubst (value : String) (index : Int) : String :=
  let ip_parts := strSplitOn value '.'
  String.intercalate "." (ip_parts.set (ip_parts.length - 1) (toString index))

/-- The `ip_updated` / `hostname_updated` / `ssid_ap_updated` flags. -/
structure UpdFlags where
  ip : Bool
  hostname : Bool
  ssid_ap : Bool
deriving DecidableEq, Repr

/-- One iteration of the row loop of `db_csv_update_parameters`: `none` is
the `return False` taken on an invalid explicit IP or an invalid substituted
IP; otherwise the possibly rewritten row and the new flag state.  Note the
skip branch for an unparseable `ip_sta` value assigns `ip_updated = False`. -/
def updOneRow (index : Int) (new_ip new_hostname new_ssid_ap : Option String)
    (flags : UpdFlags) (row : CsvRow) : Option (UpdFlags × CsvRow) :=
  if row.key = "ip_sta" then
    match new_ip with
    | none =>
      if validate_ip row.value then
        let ipVal := ipSubst row.value index
        if validate_ip ipVal then
          some ({ flags with ip := true }, { row with value := ipVal })
        else none
      else some ({ flags with ip := false }, row)
    | some nip =>
      if validate_ip nip then
        some ({ flags with ip := true }, { row with value := nip })
      else none
  else if row.key = "wifi_hostname" then
    match new_hostname with
    | none =>
      some ({ flags with hostname := true },
        { row with value := strDropRightWhile row.value Char.isDigit ++ toString index })
    | some h => some ({ flags with hostname := true }, { row with value := h })
  else if row.key = "ssid_ap" then
    match new_ssid_ap with
    | none =>
      some ({ flags with ssid_ap := true },
        { row with value := strDropRightWhile row.value Char.isDigit ++ toString index })
    | some sap => some ({ flags with ssid_ap := true }, { row with value := sap })
  else some (flags, row)

/-- The row loop of `db_csv_update_parameters` over all data rows. -/
def updRows (index : Int) (new_ip new_hostname new_ssid_ap : Option String) :
    UpdFlags → List CsvRow → Option (UpdFlags × List CsvRow)
  | flags, [] => some (flags, [])
  | flags, r :: rs =>
    match updOneRow index new_ip new_hostname new_ssid_ap flags r with
    | none => none
    | some (flags', r') =>
      match updRows index new_ip new_hostname new_ssid_ap flags' rs with
      | none => none
      | some (flags'', rs') => some (flags'', r' :: rs')

/-- `db_csv_update_parameters` on the parsed data rows: `none` embeds
`return False` (an invalid explicit or substituted IP, or no parameter
updated at all); on success the rewritten rows are saved and the flags are
the diagnostics the source logs.  File-existence and I/O failures of the
source are outside the store-level model. -/
def db_csv_update_parameters (rows : List CsvRow) (index : Int)
    (new_ip new_hostname new_ssid_ap : Option String) :
    Option (List CsvRow × UpdFlags) :=
  match updRows index new_ip new_hostname new_ssid_ap ⟨false, false, false⟩ rows with
  | none => none
  | some (flags, rows') =>
    if ¬flags.ip ∧ ¬flags.hostname ∧ ¬flags.ssid_ap then none
    else some (rows', flags)

/-- The condition under which the row loop takes `return False` at a row:
an `ip_sta` row whose explicit override fails validation, or, with no
override, whose parseable value becomes unparseable after the last-octet
substitution. -/
def ipRowFails (index : Int) (new_ip : Option String) (row : CsvRow) : Bool :=
  (row.key = "ip_sta" : Bool) &&
    (match new_ip with
     | none => validate_ip row.value && !validate_ip (ipSubst row.value index)
     | some nip => !validate_ip nip)

/-- The final `ip_updated` flag of a successful pass: the outcome at the last
`ip_sta` row (the skip branch resets the flag), `false` when there is none. -/
def finalIpFlag (rows : List CsvRow) (new_ip : Option String) : Bool :=
  match (rows.filter (fun r => r.key = "ip_sta")).getLast? with
  | none => false
  | some r => new_ip.isSome || validate_ip r.value

example : ipSubst "192.168.50.10" 3 = "192.168.50.3" := by decide
example : strDropRightWhile "Drone10" Char.isDigit ++ toString (3 : Int) = "Drone3" := by
  decide

/-! ## Config merge (`db_csv_merge_user_parameters_with_release`) -/

/-- Insertion into a Python `dict` keyed by strings: replace the value in
place if the key exists, append otherwise. -/
def dictInsert (d : List (String × CsvRow)) (k : String) (v : CsvRow) :
    List (String × CsvRow) :=
  if d.any (fun p => p.1 == k) then
    d.map (fun p => if p.1 == k then (k, v) else p)
  else d ++ [(k, v)]

/-- Accumulator of the CSV reading loops: the `*_params` dict, the row list
(only kept by the release loop) and the namespace-name list. -/
structure ReadAcc where
  params : List (String × CsvRow)
  rows : List CsvRow
  namespaces : List String
deriving Repr

/-- One iteration of the reading loops of
`db_csv_merge_user_parameters_with_release`: rows whose stripped key is
empty are skipped entirely; `namespace`-typed rows go to the namespace list,
data rows into the params dict; every kept row is appended to the row
list. -/
def readRowStep (acc : ReadAcc) (row : CsvRow) : ReadAcc :=
  let key := pyStrip row.key
  if key = "" then acc
  else
    let acc1 :=
      if pyStrip row.type = "namespace" then
        { acc with namespaces := acc.namespaces ++ [key] }
      else { acc with params := dictInsert acc.params key row }
    { acc1 with rows := acc1.rows ++ [row] }

/-- The full reading loop over the already-parsed data rows of one CSV file
(comment and blank lines are filtered before `csv.DictReader` runs). -/
def readParams (rows : List CsvRow) : ReadAcc :=
  rows.foldl readRowStep ⟨[], [], []⟩

/-- `db_csv_merge_user_parameters_with_release` on the parsed rows of the
user and release CSV files: the merged row list written to the output file,
the `missing_in_user` keys and the `obsolete_in_user` keys (the two warning
lists the source logs, kept here in release and user key order; the source
logs them sorted). -/
def db_csv_merge_user_parameters_with_release
    (userRows releaseRows : List CsvRow) :
    List CsvRow × List String × List String :=
  let user := readParams userRows
  let release := readParams releaseRows
  let user_keys := user.params.map Prod.fst
  let release_keys := release.params.map Prod.fst
  let missing_in_user := release_keys.filter (fun k => !user_keys.contains k)
  let obsolete_in_user := user_keys.filter (fun k => !release_keys.contains k)
  let merged := release.rows.map (fun row =>
    match List.lookup (pyStrip row.key) user.params with
    | some ur => { row with value := ur.value }
    | none => row)
  (merged, missing_in_user, obsolete_in_user)

/-- The rows of a CSV file that the reading loop keeps: stripped key
nonempty. -/
def keptRows (rows : List CsvRow) : List CsvRow :=
  rows.filter (fun r => !(pyStrip r.key == ""))

/-- The data keys of a CSV file: stripped keys of kept non-namespace rows. -/
def dataKeys (rows : List CsvRow) : List String :=
  (rows.filter (fun r => !(pyStrip r.key == "") && !(pyStrip r.type == "namespace"))).map
    (fun r => pyStrip r.key)

/-! ## License embedding (`db_embed_license_in_settings_csv`) -/

/-- The `license,namespace,,` header row. -/
def licenseNamespaceHeader : List String := ["license", "namespace", "", ""]

/-- The `db_lic_key,data,base64,<BASE64>` row. -/
def licenseKeyRowOf (license_b64 : String) : List String :=
  ["db_lic_key", "data", "base64", license_b64]

/-- `len(row) >= 2 and row[0] == 'license' and row[1] == 'namespace'`. -/
def isLicenseHeaderRow (row : List String) : Bool :=
  decide (2 ≤ row.length) && decide (row.getD 0 "" = "license") &&
    decide (row.getD 1 "" = "namespace")

/-- `len(row) >= 1 and row[0] == 'db_lic_key'`. -/
def isLicenseKeyRow (row : List String) : Bool :=
  decide (1 ≤ row.length) && decide (row.getD 0 "" = "db_lic_key")

/-- `key_index`: the source's scan keeps the index of the last matching row. -/
def lastKeyIdx : List (List String) → Option Nat
  | [] => none
  | r :: rs =>
    match lastKeyIdx rs with
    | some i => some (i + 1)
    | none => if isLicenseKeyRow r then some 0 else none

/-- `db_embed_license_in_settings_csv` on the parsed rows of the settings
CSV, given the base64 of the license file content: update the existing
`db_lic_key` row in place, else append the key row, preceded by the
namespace header when that is missing too. -/
def db_embed_license_in_settings_csv (rows : List (List String))
    (license_b64 : String) : List (List String) :=
  let license_key_row := licenseKeyRowOf license_b64
  match lastKeyIdx rows with
  | some i => rows.set i license_key_row
  | none =>
    if rows.any isLicenseHeaderRow then rows ++ [license_key_row]
    else rows ++ [licenseNamespaceHeader, license_key_row]

/-! ## Flash address map (`db_create_address_binary_map`) -/

/-- The fixed settings-partition address `0x9000`. -/
def DLSE_SETTINGS_PARTITION_ADDRESS : Nat := 0x9000

/-- `os.path.basename`. -/
def pathBasename (p : String) : String := (strSplitOn p '/').getLastD p

/-- Hex value of a digit list (no validity check). -/
def hexVal (l : List Char) : Nat :=
  l.foldl (fun a c =>
    a * 16 + (if c.isDigit then c.toNat - 48
              else if 'a' ≤ c && c ≤ 'f' then c.toNat - 87
              else c.toNat - 55)) 0

/-- `int(part, 16)` for a token that starts with `0x`: the digits after the
prefix must be nonempty hex digits, else the call raises. -/
def parse0x (part : String) : Option Nat :=
  let digits := part.data.drop 2
  if decide (digits ≠ []) && digits.all isHexDigitChar then some (hexVal digits)
  else none

/-- Whether a token starts with `0x`. -/
def startsWith0x (part : String) : Bool :=
  decide (part.data.take 2 = ['0', 'x'])

/-- The while loop over the whitespace-split tokens of `flash_args.txt`:
an address token followed by a file token yields one map entry whose path is
`release/folder/basename(file)`; a trailing address token is dropped; a
non-address token is skipped; an unparseable address token raises and the
whole function returns `None`. -/
def parseFlashArgs (release folder : String) : List String → Option (List (Nat × String))
  | [] => some []
  | part :: rest =>
    if startsWith0x part then
      match parse0x part with
      | none => none
      | some address =>
        match rest with
        | [] => some []
        | next :: rest' =>
          match parseFlashArgs release folder rest' with
          | none => none
          | some pairs =>
            some ((address, release ++ "/" ++ folder ++ "/" ++ pathBasename next) :: pairs)
    else parseFlashArgs release folder rest

/-- Insertion into the Python address dict. -/
def dictInsertNat (d : List (Nat × String)) (k : Nat) (v : String) :
    List (Nat × String) :=
  if d.any (fun p => p.1 == k) then
    d.map (fun p => if p.1 == k then (k, v) else p)
  else d ++ [(k, v)]

/-- `db_create_address_binary_map` given the chip id, the release root, the
whitespace-split tokens of the chip folder's `flash_args.txt` and the
settings-partition binary path.  The settings entry is written last at the
fixed address.  (For an unsupported chip id the source would fault joining
the sentinel `0` into a path; no caller reaches that, embedded as `none`.) -/
def db_create_address_binary_map (chip_id : Int) (release : String)
    (parts : List String) (settings_bin : String) : Option (List (Nat × String)) :=
  match db_get_bin_folder chip_id with
  | none => none
  | some folder =>
    match parseFlashArgs release folder parts with
    | none => none
    | some pairs =>
      some (dictInsertNat (pairs.foldl (fun d p => dictInsertNat d p.1 p.2) [])
        DLSE_SETTINGS_PARTITION_ADDRESS settings_bin)

/-! ## License acquisition and the per-device provisioning flow
(`db_get_dlse_lic_from_local_storage`, `db_get_dlse_lic_via_serial`,
and the per-port body of `batch_install_dlse_allinone.main`) -/

/-- `db_get_dlse_lic_from_local_storage`: the cached file for the activation
key (`<key>.dlselic`), `none` when the folder or the file is missing, and
`none` when `db_dlse_validate_license(file, match_activation_key=key)`
reports the record invalid — this call site unpacks the returned tuple. -/
def db_get_dlse_lic_from_local_storage (verify : List Nat → List Nat → Bool)
    (folder_exists : Bool) (cached_file : Option (List Nat))
    (activation_key : String) : Option (List Nat) :=
  if !folder_exists then none
  else
    match cached_file with
    | none => none
    | some license_data =>
      let result := db_dlse_validate_license verify license_data (some activation_key)
      if !result.1 then none else some license_data

/-- `db_get_dlse_lic_via_serial`: `extracted` is the license blob
reassembled from the device's NVS partition (`none` when the `license`
namespace or the `db_lic_key` blob is absent or serial I/O fails).  The
source then runs `if not db_dlse_validate_license(license_file_path)`; the
callee returns a `(bool, dict | None)` 2-tuple, and `not` of a nonempty
tuple is always `False`, so the guard is embedded through Python
truthiness of that tuple. -/
def db_get_dlse_lic_via_serial (verify : List Nat → List Nat → Bool)
    (extracted : Option (List Nat)) : Option (List Nat) :=
  match extracted with
  | none => none
  | some license_data =>
    let result := db_dlse_validate_license verify license_data none
    if !pyTruthy (.vTuple [.vBool result.1, licenseInfoPy result.2]) then none
    else some license_data

/-- Outcomes of the external collaborators for one device session, as the
per-port body of `batch_install_dlse_allinone.main` consumes them. -/
structure DeviceEnv where
  /-- The RSA-PSS verification oracle against the trusted public key. -/
  verify : List Nat → List Nat → Bool
  /-- `db_get_esp32_chip_id`. -/
  chip_id : Option Int
  /-- `db_get_activation_key`. -/
  activation_key : Option String
  /-- `db_is_dlse_lic_server_available` (the connectivity probe). -/
  server_available : Bool
  /-- Body of a successful `db_api_request_license_file` response. -/
  remote_license : Option (List Nat)
  /-- Whether `DLSE_LICENSE_FOLDER` exists. -/
  lic_folder_exists : Bool
  /-- Content of `<activation_key>.dlselic` in the license folder. -/
  cached_license : Option (List Nat)
  /-- License blob recoverable from the device's NVS partition. -/
  device_license : Option (List Nat)
  /-- Outcome of `db_csv_update_parameters` on the merged CSV. -/
  update_params_ok : Bool
  /-- Outcome of `db_embed_license_in_settings_csv`. -/
  embed_ok : Bool
  /-- Outcome of `db_parameters_generate_binary`. -/
  gen_binary_ok : Bool
  /-- Outcome of `db_create_address_binary_map` (`flash_args.txt` readable). -/
  addr_map_ok : Bool
  /-- Whether every file of the address map exists (checked before writing). -/
  bin_files_present : Bool
  /-- Outcome of the `esptool write-flash` subprocess. -/
  flash_ok : Bool

/-- Externally visible effects of one device session. -/
inductive SessionEvent where
  /-- `db_is_dlse_lic_server_available`: a network request. -/
  | probeServer
  /-- `db_api_request_license_file`: a network request. -/
  | remoteRequest
  /-- `db_get_dlse_lic_via_serial`: a read of the device's flash. -/
  | deviceLicenseRead
  /-- `esptool write-flash`: a write to the device's flash. -/
  | deviceFlashWrite
deriving DecidableEq, Repr

/-- What one pass of the per-port loop body produced. -/
structure SessionOut where
  /-- Network and device-flash effects, in order. -/
  events : List SessionEvent
  /-- The license file content the session worked with (`_license_file_path`). -/
  license_used : Option (List Nat)
  /-- Whether the body ran to its final log line ("Finished processing"). -/
  completed : Bool
  /-- Whether `START_DEVICE_ID += 1` executed. -/
  index_incremented : Bool
  /-- Return value of `db_flash_binaries` (the source discards it). -/
  flash_result : Bool
deriving DecidableEq, Repr

/-- `db_flash_binaries`: with no map (`None` or empty) or a missing binary
file it returns `False` before any device I/O; otherwise the `esptool`
subprocess writes flash and its exit status is the result. -/
def db_flash_binaries (env : DeviceEnv) (map_present : Bool) :
    Bool × List SessionEvent :=
  if !map_present then (false, [])
  else if !env.bin_files_present then (false, [])
  else (env.flash_ok, [SessionEvent.deviceFlashWrite])

/-- The tail of the loop body after a license file is secured: parameter
update, license embedding, binary generation (each aborting the session via
`continue` on failure), then map creation and flashing — whose results the
source does not check — then the unconditional increment of
`START_DEVICE_ID`. -/
def sessionContinue (env : DeviceEnv) (events : List SessionEvent)
    (lic : List Nat) : SessionOut :=
  if !env.update_params_ok then ⟨events, some lic, false, false, false⟩
  else if !env.embed_ok then ⟨events, some lic, false, false, false⟩
  else if !env.gen_binary_ok then ⟨events, some lic, false, false, false⟩
  else
    let flashed := db_flash_binaries env env.addr_map_ok
    ⟨events ++ flashed.2, some lic, true, true, flashed.1⟩

/-- The per-port body of `batch_install_dlse_allinone.main` for one newly
detected device: chip gate, activation key, the availability probe, then
remote issuance when the server is reachable, else local cache first and
NVS recovery second, then the provisioning tail. -/
def runSession (env : DeviceEnv) : SessionOut :=
  match env.chip_id with
  | none => ⟨[], none, false, false, false⟩
  | some cid =>
    if !supportedChipIds.contains cid then ⟨[], none, false, false, false⟩
    else
      match env.activation_key with
      | none => ⟨[], none, false, false, false⟩
      | some ak =>
        let events := [SessionEvent.probeServer]
        if !env.server_available then
          match db_get_dlse_lic_from_local_storage env.verify
              env.lic_folder_exists env.cached_license ak with
          | some lic => sessionContinue env events lic
          | none =>
            let events := events ++ [SessionEvent.deviceLicenseRead]
            match db_get_dlse_lic_via_serial env.verify env.device_license with
            | none => ⟨events, none, false, false, false⟩
            | some lic => sessionContinue env events lic
        else
          let events := events ++ [SessionEvent.remoteRequest]
          match env.remote_license with
          | none => ⟨events, none, false, false, false⟩
          | some lic => sessionContinue env events lic

/-! ## Claim C3: the chip-id 13 binary folder -/

/-- Every entry of a Python dict after an insertion either carries the
inserted value or was already present. -/
lemma mem_dictInsertNat {d : List (Nat × String)} {k : Nat} {v : String}
    {e : Nat × String} (h : e ∈ dictInsertNat d k v) : e.2 = v ∨ e ∈ d := by
  unfold dictInsertNat at h
  split at h
  · rcases List.mem_map.1 h with ⟨p, hp, he⟩
    by_cases hk : p.1 == k
    · simp [hk] at he
      exact Or.inl (by rw [← he])
    · simp [hk] at he
      exact Or.inr (he ▸ hp)
  · rcases List.mem_append.1 h with h' | h'
    · exact Or.inr h'
    · simp at h'
      exact Or.inl (by rw [h'])

/-- Every entry of the dict built from a pair list carries one of the listed
values. -/
lemma mem_foldl_dictInsertNat :
    ∀ (pairs : List (Nat × String)) (d : List (Nat × String)) (e : Nat × String),
    e ∈ pairs.foldl (fun d p => dictInsertNat d p.1 p.2) d →
    e ∈ d ∨ ∃ p ∈ pairs, e.2 = p.2 := by
  intro pairs
  induction pairs with
  | nil => intro d e h; exact Or.inl h
  | cons p ps ih =>
    intro d e h
    rcases ih _ _ h with h' | ⟨q, hq, he⟩
    · rcases mem_dictInsertNat h' with h'' | h''
      · exact Or.inr ⟨p, List.mem_cons_self p ps, h''⟩
      · exact Or.inl h''
    · exact Or.inr ⟨q, List.mem_cons_of_mem p hq, he⟩

/-- Every map entry produced from `flash_args.txt` tokens points into the
chip's release folder. -/
lemma parseFlashArgs_mem (release folder : String) :
    ∀ (parts : List String) (pairs : List (Nat × String)),
    parseFlashArgs release folder parts = some pairs →
    ∀ e ∈ pairs, ∃ f, e.2 = release ++ "/" ++ folder ++ "/" ++ f := by
  intro parts
  induction parts using parseFlashArgs.induct release folder with
  | case1 =>
    intro pairs h e he
    simp [parseFlashArgs] at h
    subst h
    simp at he
  | case2 part rest h0x hpx =>
    intro pairs h e he
    simp only [parseFlashArgs, h0x, if_true, hpx] at h
    exact absurd h (by simp)
  | case3 part h0x addr hpx =>
    intro pairs h e he
    simp only [parseFlashArgs, h0x, if_true, hpx] at h
    simp at h
    subst h
    simp at he
  | case4 part h0x addr hpx next rest' hrec ih =>
    intro pairs h e he
    simp only [parseFlashArgs, h0x, if_true, hpx, hrec] at h
    exact absurd h (by simp)
  | case5 part h0x addr hpx next rest' pairs0 hrec ih =>
    intro pairs h e he
    simp only [parseFlashArgs, h0x, if_true, hpx, hrec] at h
    simp at h
    subst h
    rcases List.mem_cons.1 he with he' | he'
    · exact ⟨pathBasename next, by rw [he']⟩
    · exact ih _ hrec e he'
  | case6 part rest h0x ih =>
    intro pairs h e he
    simp only [parseFlashArgs, h0x] at h
    simp at h
    exact ih _ h e he

/-- Claim C3: chip id 13 (named `ESP32C6` in `DLSESupportedChips`) selects
the binary folder `esp32c5_generic` — the same folder as chip id 23
(`ESP32C5`); the folder `esp32c6_generic` is selected for no chip id; hence
the flash address-to-binary map built for a chip-id-13 device references
only `esp32c5_generic` release binaries besides the settings partition. -/
theorem bin_folder_chip13_is_c5 :
    DLSESupportedChips.ESP32C6.value = 13
    ∧ DLSESupportedChips.ESP32C5.value = 23
    ∧ db_get_bin_folder 13 = some "esp32c5_generic"
    ∧ db_get_bin_folder 13 = db_get_bin_folder 23
    ∧ (∀ chip_id : Int, db_get_bin_folder chip_id ≠ some "esp32c6_generic")
    ∧ (∀ (release : String) (parts : List String) (settings_bin : String)
         (m : List (Nat × String)),
        db_create_address_binary_map 13 release parts settings_bin = some m →
        ∀ e ∈ m, e.2 = settings_bin ∨
          ∃ f, e.2 = release ++ "/" ++ "esp32c5_generic" ++ "/" ++ f) := by
  refine ⟨rfl, rfl, rfl, rfl, ?_, ?_⟩
  · intro chip_id
    unfold db_get_bin_folder
    split_ifs <;> simp
  · intro release parts settings_bin m h e he
    unfold db_create_address_binary_map at h
    simp only [db_get_bin_folder] at h
    norm_num at h
    rcases hp : parseFlashArgs release "esp32c5_generic" parts with _ | pairs
    · rw [hp] at h; exact absurd h (by simp)
    · rw [hp] at h
      simp at h
      subst h
      rcases mem_dictInsertNat he with h' | h'
      · exact Or.inl h'
      · rcases mem_foldl_dictInsertNat pairs [] e h' with h'' | ⟨p, hp', he'⟩
        · simp at h''
        · rcases parseFlashArgs_mem release "esp32c5_generic" parts pairs hp p hp' with ⟨f, hf⟩
          exact Or.inr ⟨f, by rw [he', hf]⟩

/-! ## Claims C7 and C9: license decode-and-verify outcomes -/

/-- Claim C7: `db_dlse_validate_license` returns a `(valid, info)` result on
every byte content (the embedding is a total function — every error path of
the source is a `return`, with `InvalidSignature` and all other exceptions
caught): content too short for the 524-byte fixed tail yields the malformed
result `(false, none)`, and content whose signature fails verification —
any corruption of the signature region that makes the oracle reject —
yields `(false, none)`, never an exception. -/
theorem validate_license_malformed_and_sig_failure
    (verify : List Nat → List Nat → Bool) (license_data : List Nat)
    (match_activation_key : Option String) :
    (license_data.length ≤ 524 →
      db_dlse_validate_license verify license_data match_activation_key
        = (false, none))
    ∧ (524 < license_data.length →
       verify (licDataToVerify license_data) (licSignature license_data) = false →
       db_dlse_validate_license verify license_data match_activation_key
         = (false, none)) := by
  constructor
  · intro h
    unfold db_dlse_validate_license
    rw [if_pos h]
  · intro h hv
    unfold db_dlse_validate_license
    rw [if_neg (not_le.2 h), hv]
    simp

/-- Claim C9: when an expected activation key is supplied and the key
embedded in the record differs from it (after base64 encoding), the record
is reported invalid — whatever the signature oracle says, so in particular
even when the signature verifies. -/
theorem validate_license_key_mismatch_invalid
    (verify : List Nat → List Nat → Bool) (license_data : List Nat) (m : String)
    (hlen : 524 < license_data.length)
    (hne : base64Encode (licActivationKey license_data) ≠ m) :
    (db_dlse_validate_license verify license_data (some m)).1 = false := by
  unfold db_dlse_validate_license
  rw [if_neg (not_le.2 hlen)]
  rcases hv : verify (licDataToVerify license_data) (licSignature license_data) with _ | _
  · simp
  · simp [hne]

set_option maxRecDepth 40000 in
/-- Witness for C9 at a concrete record: a 525-byte zero record embeds the
key `[0]` (base64 `AA==`), which differs from the expected key `DLSE`, so
the result is invalid even under an oracle that accepts every signature. -/
theorem validate_license_key_mismatch_invalid_witness :
    (db_dlse_validate_license (fun _ _ => true) (List.replicate 525 0)
      (some "DLSE")).1 = false :=
  validate_license_key_mismatch_invalid (fun _ _ => true) (List.replicate 525 0)
    "DLSE" (by simp) (by decide)

/-! ## Claims C1, C2, C4: per-device sessions -/

/-- A 525-byte all-zero license file: long enough to parse (a one-byte
activation key `[0]`, base64 `AA==`), concrete enough to evaluate. -/
def licBytes525 : List Nat := List.replicate 525 0

/-- Environment of claim C1: license server unreachable, no cached license,
and the device's NVS partition holds a license blob whose signature fails
verification; every later provisioning step succeeds. -/
def c1Env : DeviceEnv :=
  { verify := fun _ _ => false
    chip_id := some 13
    activation_key := some "AA=="
    server_available := false
    remote_license := none
    lic_folder_exists := false
    cached_license := none
    device_license := some licBytes525
    update_params_ok := true
    embed_ok := true
    gen_binary_ok := true
    addr_map_ok := true
    bin_files_present := true
    flash_ok := true }

set_option maxRecDepth 40000 in
/-- Claim C1 is violated by the source: the recovered record fails
signature verification (`db_dlse_validate_license` returns `false`), yet
`db_get_dlse_lic_via_serial` still returns it — its guard
`if not db_dlse_validate_license(path)` tests a nonempty tuple, which is
always truthy — and the session proceeds to write the device's flash and
runs to completion instead of aborting. -/
theorem invalid_recovered_license_still_flashed :
    (db_dlse_validate_license c1Env.verify licBytes525 none).1 = false
    ∧ db_get_dlse_lic_via_serial c1Env.verify c1Env.device_license = some licBytes525
    ∧ (runSession c1Env).license_used = some licBytes525
    ∧ SessionEvent.deviceFlashWrite ∈ (runSession c1Env).events
    ∧ (runSession c1Env).completed = true := by
  decide

/-- Environment of claim C2's counterexample: the license server is
reachable and a valid cached record exists for the activation key. -/
def c2Env : DeviceEnv :=
  { verify := fun _ _ => true
    chip_id := some 5
    activation_key := some "AA=="
    server_available := true
    remote_license := some licBytes525
    lic_folder_exists := true
    cached_license := some licBytes525
    device_license := none
    update_params_ok := true
    embed_ok := true
    gen_binary_ok := true
    addr_map_ok := true
    bin_files_present := true
    flash_ok := true }

set_option maxRecDepth 40000 in
/-- Counterexample to claim C2: the device's activation key has a valid
cached license record (the local lookup succeeds), yet the session issues a
remote-issuance network request — the availability probe runs first and a
reachable server routes acquisition to the remote path, never consulting
the cache. -/
theorem valid_cache_still_remote_requested :
    db_get_dlse_lic_from_local_storage c2Env.verify c2Env.lic_folder_exists
      c2Env.cached_license "AA==" = some licBytes525
    ∧ SessionEvent.remoteRequest ∈ (runSession c2Env).events
    ∧ SessionEvent.probeServer ∈ (runSession c2Env).events := by
  decide

/-- Environment of claim C4's counterexample: everything up to binary
generation succeeds, the flash subprocess fails. -/
def c4Env : DeviceEnv :=
  { verify := fun _ _ => true
    chip_id := some 23
    activation_key := some "AA=="
    server_available := true
    remote_license := some licBytes525
    lic_folder_exists := false
    cached_license := none
    device_license := none
    update_params_ok := true
    embed_ok := true
    gen_binary_ok := true
    addr_map_ok := true
    bin_files_present := true
    flash_ok := false }

set_option maxRecDepth 40000 in
/-- Counterexample to claim C4: the flashing step fails
(`db_flash_binaries` returns `False`, a value the loop body discards), yet
`START_DEVICE_ID += 1` still executes — a device whose flashing failed
consumes an index value. -/
theorem flash_failure_still_increments_index :
    (runSession c4Env).flash_result = false
    ∧ (runSession c4Env).index_incremented = true := by
  decide

/-- The provisioning tail: it reports the license it was given, and the
index increments exactly when parameter update, embedding and binary
generation all succeed — independently of map creation and flashing. -/
lemma sessionContinue_spec (env : DeviceEnv) (events : List SessionEvent)
    (lic : List Nat) :
    (sessionContinue env events lic).license_used = some lic
    ∧ (sessionContinue env events lic).index_incremented
        = (env.update_params_ok && env.embed_ok && env.gen_binary_ok)
    ∧ (sessionContinue env events lic).index_incremented
        = (sessionContinue env events lic).completed
    ∧ (∃ tail, (sessionContinue env events lic).events = events ++ tail
        ∧ SessionEvent.remoteRequest ∉ tail
        ∧ SessionEvent.deviceLicenseRead ∉ tail
        ∧ SessionEvent.probeServer ∉ tail) := by
  unfold sessionContinue db_flash_binaries
  rcases env.update_params_ok with _ | _ <;>
    rcases env.embed_ok with _ | _ <;>
      rcases env.gen_binary_ok with _ | _ <;>
        simp
  all_goals
    rcases env.addr_map_ok with _ | _ <;> rcases env.bin_files_present with _ | _ <;> simp

/-- Claim C2, amended: the availability probe always runs first; when it
reports the server unreachable, a valid cached record for the activation
key is used as-is — no remote-issuance request and no device-recovery read
occur for that session. -/
theorem license_acquisition_order (env : DeviceEnv) (cid : Int) (ak : String)
    (lic : List Nat)
    (hchip : env.chip_id = some cid)
    (hsup : supportedChipIds.contains cid = true)
    (hak : env.activation_key = some ak)
    (hserver : env.server_available = false)
    (hcache : db_get_dlse_lic_from_local_storage env.verify env.lic_folder_exists
        env.cached_license ak = some lic) :
    (runSession env).license_used = some lic
    ∧ SessionEvent.remoteRequest ∉ (runSession env).events
    ∧ SessionEvent.deviceLicenseRead ∉ (runSession env).events := by
  unfold runSession
  rw [hchip, hak]
  simp only [hsup, hserver, hcache, Bool.not_true, Bool.not_false,
    Bool.false_eq_true, if_false, if_true]
  rcases sessionContinue_spec env [SessionEvent.probeServer] lic with
    ⟨h1, _, _, tail, hev, hr, hd, _⟩
  refine ⟨h1, ?_, ?_⟩ <;> rw [hev]
  · intro hmem
    rcases List.mem_append.1 hmem with h' | h'
    · simp at h'
    · exact hr h'
  · intro hmem
    rcases List.mem_append.1 hmem with h' | h'
    · simp at h'
    · exact hd h'

/-- Environment of the C2 witness: server unreachable, valid cached record
present. -/
def c2wEnv : DeviceEnv :=
  { verify := fun _ _ => true
    chip_id := some 5
    activation_key := some "AA=="
    server_available := false
    remote_license := none
    lic_folder_exists := true
    cached_license := some licBytes525
    device_license := none
    update_params_ok := true
    embed_ok := true
    gen_binary_ok := true
    addr_map_ok := true
    bin_files_present := true
    flash_ok := true }

set_option maxRecDepth 40000 in
/-- Witness for the amended C2 at a concrete offline environment with a
valid cached record. -/
theorem license_acquisition_order_witness :
    (runSession c2wEnv).license_used = some licBytes525
    ∧ SessionEvent.remoteRequest ∉ (runSession c2wEnv).events
    ∧ SessionEvent.deviceLicenseRead ∉ (runSession c2wEnv).events :=
  license_acquisition_order c2wEnv 5 "AA==" licBytes525 rfl (by decide) rfl rfl
    (by decide)

/-- Claim C4, amended: the per-device index increments exactly when the
session acquires a license and parameter update, license embedding and
binary generation succeed — the results of map creation and of flashing
play no part, and the increment coincides with the body running to its
final log line. -/
theorem index_increment_characterization (env : DeviceEnv) :
    (runSession env).index_incremented
      = ((runSession env).license_used.isSome
          && env.update_params_ok && env.embed_ok && env.gen_binary_ok)
    ∧ (runSession env).index_incremented = (runSession env).completed := by
  unfold runSession
  rcases env.chip_id with _ | cid
  · simp
  rcases hsup : supportedChipIds.contains cid with _ | _
  · have hmem : cid ∉ supportedChipIds := by simpa using hsup
    simp [hmem]
  rcases env.activation_key with _ | ak
  · simp [hsup]
  simp only [hsup, Bool.not_true, Bool.false_eq_true, if_false, if_true]
  rcases hserver : env.server_available with _ | _ <;>
    simp only [Bool.not_true, Bool.not_false, Bool.false_eq_true, if_false, if_true]
  · rcases hcache : db_get_dlse_lic_from_local_storage env.verify
        env.lic_folder_exists env.cached_license ak with _ | lic
    · rcases hser : db_get_dlse_lic_via_serial env.verify env.device_license with _ | lic
      · simp
      · rcases sessionContinue_spec env
            [SessionEvent.probeServer, SessionEvent.deviceLicenseRead] lic with
          ⟨h1, h2, h3, _⟩
        simp [h1, h2, ← h3]
    · rcases sessionContinue_spec env [SessionEvent.probeServer] lic with ⟨h1, h2, h3, _⟩
      simp [h1, h2, ← h3]
  · rcases env.remote_license with _ | lic
    · simp
    · rcases sessionContinue_spec env
          [SessionEvent.probeServer, SessionEvent.remoteRequest] lic with
        ⟨h1, h2, h3, _⟩
      simp [h1, h2, ← h3]

/-! ## Claim C10: license embedding -/

/-- The written license row matches the `db_lic_key` scan for any payload. -/
lemma isLicenseKeyRow_licenseKeyRowOf (b64 : String) :
    isLicenseKeyRow (licenseKeyRowOf b64) = true := by
  simp [isLicenseKeyRow, licenseKeyRowOf]

/-- The namespace header row does not match the `db_lic_key` scan. -/
lemma isLicenseKeyRow_header : isLicenseKeyRow licenseNamespaceHeader = false := by
  decide

/-- Replacing the last `db_lic_key` row with a `db_lic_key` row keeps the
scan's index. -/
lemma lastKeyIdx_set (b64 : String) :
    ∀ (rows : List (List String)) (i : Nat), lastKeyIdx rows = some i →
    lastKeyIdx (rows.set i (licenseKeyRowOf b64)) = some i := by
  intro rows
  induction rows with
  | nil => intro i h; simp [lastKeyIdx] at h
  | cons r rs ih =>
    intro i h
    rcases hrs : lastKeyIdx rs with _ | j
    · rw [lastKeyIdx, hrs] at h
      rcases hkey : isLicenseKeyRow r with _ | _
      · rw [hkey] at h; simp at h
      · rw [hkey] at h
        simp at h
        subst h
        simp only [List.set]
        rw [lastKeyIdx, hrs, isLicenseKeyRow_licenseKeyRowOf]
        rfl
    · rw [lastKeyIdx, hrs] at h
      simp at h
      subst h
      simp only [List.set]
      rw [lastKeyIdx, ih j hrs]

/-- The `db_lic_key` scan over an appended list prefers the suffix. -/
lemma lastKeyIdx_append :
    ∀ (l1 l2 : List (List String)),
    lastKeyIdx (l1 ++ l2)
      = (match lastKeyIdx l2 with
         | some j => some (l1.length + j)
         | none => lastKeyIdx l1) := by
  intro l1 l2
  induction l1 with
  | nil => rcases h : lastKeyIdx l2 with _ | j <;> simp [h, lastKeyIdx]
  | cons r rs ih =>
    rw [List.cons_append, lastKeyIdx, ih]
    rcases h2 : lastKeyIdx l2 with _ | j
    · rfl
    · rcases hrs : lastKeyIdx rs with _ | j' <;>
        simp [lastKeyIdx, Nat.add_assoc, Nat.add_comm 1 j]

/-- Setting the index right after a prefix rewrites the appended suffix. -/
lemma set_append_len (l : List (List String)) (a b : List String) :
    (l ++ [a]).set l.length b = l ++ [b] := by
  induction l with
  | nil => rfl
  | cons r rs ih => exact congrArg (List.cons r) ih

/-- Setting one past a prefix inside a two-element suffix. -/
lemma set_append_len_succ (l : List (List String)) (a c b : List String) :
    (l ++ [a, c]).set (l.length + 1) b = l ++ [a, b] := by
  induction l with
  | nil => rfl
  | cons r rs ih => exact congrArg (List.cons r) ih

/-- The embedding when a `db_lic_key` row exists: in-place replacement. -/
lemma embed_eq_set (rows : List (List String)) (b64 : String) (i : Nat)
    (h : lastKeyIdx rows = some i) :
    db_embed_license_in_settings_csv rows b64 = rows.set i (licenseKeyRowOf b64) := by
  rw [db_embed_license_in_settings_csv, h]

/-- The embedding when only the namespace header exists: append the key row. -/
lemma embed_eq_append_key (rows : List (List String)) (b64 : String)
    (h : lastKeyIdx rows = none) (hh : rows.any isLicenseHeaderRow = true) :
    db_embed_license_in_settings_csv rows b64 = rows ++ [licenseKeyRowOf b64] := by
  rw [db_embed_license_in_settings_csv, h, hh]
  simp

/-- The embedding when neither the key row nor the header exists: append
both. -/
lemma embed_eq_append_both (rows : List (List String)) (b64 : String)
    (h : lastKeyIdx rows = none) (hh : rows.any isLicenseHeaderRow = false) :
    db_embed_license_in_settings_csv rows b64
      = rows ++ [licenseNamespaceHeader, licenseKeyRowOf b64] := by
  rw [db_embed_license_in_settings_csv, h, hh]
  simp

/-- The scan finds the appended key row. -/
lemma lastKeyIdx_append_key (rows : List (List String)) (b64 : String) :
    lastKeyIdx (rows ++ [licenseKeyRowOf b64]) = some rows.length := by
  rw [lastKeyIdx_append]
  simp [lastKeyIdx, isLicenseKeyRow_licenseKeyRowOf]

/-- The scan finds the key row appended after the header. -/
lemma lastKeyIdx_append_both (rows : List (List String)) (b64 : String) :
    lastKeyIdx (rows ++ [licenseNamespaceHeader, licenseKeyRowOf b64])
      = some (rows.length + 1) := by
  rw [lastKeyIdx_append]
  simp [lastKeyIdx, isLicenseKeyRow_licenseKeyRowOf, isLicenseKeyRow_header]

/-- Claim C10: embedding the license into the settings rows is idempotent,
creates the `license,namespace,,` header only when both the key row and the
header are absent, and replaces the last prior `db_lic_key` row in place
when one exists. -/
theorem embed_license_idempotent (rows : List (List String)) (b64 : String) :
    db_embed_license_in_settings_csv
        (db_embed_license_in_settings_csv rows b64) b64
      = db_embed_license_in_settings_csv rows b64
    ∧ (∀ i, lastKeyIdx rows = some i →
        db_embed_license_in_settings_csv rows b64
          = rows.set i (licenseKeyRowOf b64))
    ∧ (lastKeyIdx rows = none → rows.any isLicenseHeaderRow = true →
        db_embed_license_in_settings_csv rows b64 = rows ++ [licenseKeyRowOf b64])
    ∧ (lastKeyIdx rows = none → rows.any isLicenseHeaderRow = false →
        db_embed_license_in_settings_csv rows b64
          = rows ++ [licenseNamespaceHeader, licenseKeyRowOf b64]) := by
  refine ⟨?_, fun i h => embed_eq_set rows b64 i h,
    fun h hh => embed_eq_append_key rows b64 h hh,
    fun h hh => embed_eq_append_both rows b64 h hh⟩
  rcases h : lastKeyIdx rows with _ | i
  · rcases hh : rows.any isLicenseHeaderRow with _ | _
    · rw [embed_eq_append_both rows b64 h hh,
        embed_eq_set _ b64 (rows.length + 1) (lastKeyIdx_append_both rows b64),
        set_append_len_succ]
    · rw [embed_eq_append_key rows b64 h hh,
        embed_eq_set _ b64 rows.length (lastKeyIdx_append_key rows b64),
        set_append_len]
  · rw [embed_eq_set rows b64 i h,
      embed_eq_set _ b64 i (lastKeyIdx_set b64 rows i h), List.set_set]

/-! ## Claims C5 and C8: index assignment -/

/-- The row loop returns `False` at a row exactly when `ipRowFails` holds,
independently of the accumulated flags. -/
lemma updOneRow_eq_none_iff (i : Int) (nip nh ns : Option String)
    (flags : UpdFlags) (r : CsvRow) :
    (updOneRow i nip nh ns flags r = none) ↔ ipRowFails i nip r = true := by
  unfold updOneRow ipRowFails
  by_cases hk : r.key = "ip_sta"
  · simp only [hk, if_true, decide_True, Bool.true_and]
    rcases nip with _ | s
    · by_cases hv : validate_ip r.value
      · by_cases hs : validate_ip (ipSubst r.value i) <;> simp [hv, hs]
      · simp [hv]
    · by_cases ho : validate_ip s <;> simp [ho]
  · by_cases h2 : r.key = "wifi_hostname"
    · rcases nh with _ | h <;> simp [hk, h2]
    · by_cases h3 : r.key = "ssid_ap"
      · rcases ns with _ | sp <;> simp [hk, h2, h3]
      · simp [hk, h2, h3]

/-- The row loop fails iff some row triggers `ipRowFails`. -/
lemma updRows_eq_none_iff (i : Int) (nip nh ns : Option String) :
    ∀ (rows : List CsvRow) (flags : UpdFlags),
    (updRows i nip nh ns flags rows = none) ↔
      ∃ r ∈ rows, ipRowFails i nip r = true := by
  intro rows
  induction rows with
  | nil => intro flags; simp [updRows]
  | cons r rs ih =>
    intro flags
    rcases h1 : updOneRow i nip nh ns flags r with _ | ⟨flags', r'⟩
    · rw [updRows, h1]
      exact iff_of_true rfl
        ⟨r, List.mem_cons_self r rs, (updOneRow_eq_none_iff i nip nh ns flags r).1 h1⟩
    · have hr : ipRowFails i nip r = false := by
        rcases hf : ipRowFails i nip r with _ | _
        · rfl
        · rw [(updOneRow_eq_none_iff i nip nh ns flags r).2 hf] at h1
          exact absurd h1 (by simp)
      rw [updRows, h1]
      show (match updRows i nip nh ns flags' rs with
            | none => none
            | some (flags'', rs') => some (flags'', r' :: rs')) = none ↔ _
      rcases h2 : updRows i nip nh ns flags' rs with _ | q
      · refine iff_of_true rfl ?_
        rcases (ih flags').1 h2 with ⟨r'', hr'', hfail⟩
        exact ⟨r'', List.mem_cons_of_mem r hr'', hfail⟩
      · refine iff_of_false (by simp) ?_
        rintro ⟨r'', hr'', hfail⟩
        rcases List.mem_cons.1 hr'' with he | hm
        · rw [he] at hfail
          rw [hfail] at hr
          exact absurd hr (by simp)
        · rw [(ih flags').2 ⟨r'', hm, hfail⟩] at h2
          exact absurd h2 (by simp)

/-- Flag bookkeeping of one loop iteration: the hostname and SSID flags
latch on their rows, the IP flag is overwritten at every `ip_sta` row. -/
lemma updOneRow_flags (i : Int) (nip nh ns : Option String) (flags : UpdFlags)
    (r : CsvRow) (flags' : UpdFlags) (r' : CsvRow)
    (h : updOneRow i nip nh ns flags r = some (flags', r')) :
    flags'.hostname = (flags.hostname || (r.key == "wifi_hostname"))
    ∧ flags'.ssid_ap = (flags.ssid_ap || (r.key == "ssid_ap"))
    ∧ flags'.ip = (if r.key = "ip_sta" then (nip.isSome || validate_ip r.value)
                   else flags.ip) := by
  unfold updOneRow at h
  by_cases hk : r.key = "ip_sta"
  · rcases nip with _ | s
    · rcases hv : validate_ip r.value with _ | _
      · simp [hk, hv] at h
        simp [← h.1, hk, hv]
      · rcases hs : validate_ip (ipSubst r.value i) with _ | _
        · simp [hk, hv, hs] at h
        · simp [hk, hv, hs] at h
          simp [← h.1, hk, hv]
    · rcases ho : validate_ip s with _ | _
      · simp [hk, ho] at h
      · simp [hk, ho] at h
        simp [← h.1, hk]
  · by_cases h2 : r.key = "wifi_hostname"
    · rcases nh with _ | hn <;>
        { simp [hk, h2] at h
          simp [← h.1, hk, h2] }
    · by_cases h3 : r.key = "ssid_ap"
      · rcases ns with _ | sp <;>
          { simp [hk, h2, h3] at h
            simp [← h.1, hk, h2, h3] }
      · simp [hk, h2, h3] at h
        simp [← h.1, hk, h2, h3]

/-- Flag bookkeeping over the whole loop. -/
lemma updRows_flags (i : Int) (nip nh ns : Option String) :
    ∀ (rows : List CsvRow) (flags : UpdFlags) (out : UpdFlags × List CsvRow),
    updRows i nip nh ns flags rows = some out →
    out.1.hostname = (flags.hostname || rows.any (fun r => r.key == "wifi_hostname"))
    ∧ out.1.ssid_ap = (flags.ssid_ap || rows.any (fun r => r.key == "ssid_ap"))
    ∧ out.1.ip = rows.foldl
        (fun b r => if r.key = "ip_sta" then (nip.isSome || validate_ip r.value) else b)
        flags.ip := by
  intro rows
  induction rows with
  | nil =>
    intro flags out h
    simp [updRows] at h
    subst h
    simp
  | cons r rs ih =>
    intro flags out h
    rcases h1 : updOneRow i nip nh ns flags r with _ | ⟨flags', r'⟩
    · rw [updRows, h1] at h; exact absurd h (by simp)
    · rw [updRows, h1] at h
      replace h : (match updRows i nip nh ns flags' rs with
          | none => none
          | some (flags'', rs') => some (flags'', r' :: rs')) = some out := h
      rcases h2 : updRows i nip nh ns flags' rs with _ | q
      · rw [h2] at h; exact absurd h (by simp)
      · rw [h2] at h
        simp at h
        rcases updOneRow_flags i nip nh ns flags r flags' r' h1 with ⟨f1, f2, f3⟩
        rcases ih flags' q h2 with ⟨g1, g2, g3⟩
        subst h
        refine ⟨?_, ?_, ?_⟩
        · rw [g1, f1, List.any_cons, Bool.or_assoc]
        · rw [g2, f2, List.any_cons, Bool.or_assoc]
        · rw [g3, f3, List.foldl_cons]

/-- Last-write-wins folds are decided by the last matching element. -/
lemma foldl_if_getLast {α β : Type} (p : α → Prop) [DecidablePred p] (f : α → β) :
    ∀ (l : List α) (b : β),
    l.foldl (fun acc x => if p x then f x else acc) b
      = (match (l.filter (fun x => decide (p x))).getLast? with
         | none => b
         | some x => f x) := by
  intro l
  induction l with
  | nil => intro b; rfl
  | cons a l ih =>
    intro b
    rw [List.foldl_cons, ih]
    by_cases hp : p a
    · simp only [List.filter_cons, decide_eq_true_eq, hp, if_pos, if_true, decide_True]
      rcases hfl : l.filter (fun x => decide (p x)) with _ | ⟨y, ys⟩
      · simp
      · rcases hgl : (y :: ys).getLast? with _ | z
        · rw [List.getLast?_eq_none_iff] at hgl
          simp at hgl
        · rw [List.getLast?_cons_cons, hgl]
    · simp only [List.filter_cons, decide_eq_true_eq, hp, if_neg, decide_False,
        Bool.false_eq_true, if_false]

/-- Claim C5, amended: the index-assignment pass fails exactly when either
some `ip_sta` row trips the IP check — an explicit override that fails
validation, or, with no override, a parseable current value whose
last-octet substitution fails validation — or the pass completes with no
field updated: no `wifi_hostname` row, no `ssid_ap` row, and the final
`ip_updated` flag false (no `ip_sta` row, or the last one skipped). -/
theorem update_parameters_failure_characterization (rows : List CsvRow)
    (index : Int) (new_ip new_hostname new_ssid_ap : Option String) :
    db_csv_update_parameters rows index new_ip new_hostname new_ssid_ap = none ↔
      ((∃ r ∈ rows, ipRowFails index new_ip r = true) ∨
       (finalIpFlag rows new_ip = false ∧
        rows.any (fun r => r.key == "wifi_hostname") = false ∧
        rows.any (fun r => r.key == "ssid_ap") = false)) := by
  unfold db_csv_update_parameters
  rcases h : updRows index new_ip new_hostname new_ssid_ap ⟨false, false, false⟩ rows
    with _ | ⟨flags, rows'⟩
  · refine iff_of_true rfl ?_
    exact Or.inl ((updRows_eq_none_iff index new_ip new_hostname new_ssid_ap rows
      ⟨false, false, false⟩).1 h)
  · show ((if ¬flags.ip ∧ ¬flags.hostname ∧ ¬flags.ssid_ap then none
            else some (rows', flags)) = none) ↔ _
    have hnofail : ¬∃ r ∈ rows, ipRowFails index new_ip r = true := by
      intro hex
      rw [(updRows_eq_none_iff index new_ip new_hostname new_ssid_ap rows
        ⟨false, false, false⟩).2 hex] at h
      exact absurd h (by simp)
    have hflags := updRows_flags index new_ip new_hostname new_ssid_ap rows
      ⟨false, false, false⟩ (flags, rows') h
    simp only [Bool.false_or] at hflags
    rcases hflags with ⟨f1, f2, f3⟩
    have hip : flags.ip = finalIpFlag rows new_ip := by
      have hfold := foldl_if_getLast (fun r : CsvRow => r.key = "ip_sta")
        (fun r => new_ip.isSome || validate_ip r.value) rows false
      rw [f3, hfold]
      unfold finalIpFlag
      rcases hgl : (rows.filter (fun r => r.key = "ip_sta")).getLast? with _ | r
      · rw [hgl]
      · rw [hgl]
    constructor
    · intro hnone
      right
      by_cases hcond : ¬flags.ip ∧ ¬flags.hostname ∧ ¬flags.ssid_ap
      · rcases hcond with ⟨c1, c2, c3⟩
        refine ⟨by rw [← hip]; simpa using c1, ?_, ?_⟩
        · rw [← f1]; simpa using c2
        · rw [← f2]; simpa using c3
      · rw [if_neg hcond] at hnone
        exact absurd hnone (by simp)
    · rintro (hex | ⟨hipf, hhost, hssid⟩)
      · exact absurd hex hnofail
      · have c1 : flags.ip = false := by rw [hip, hipf]
        have c2 : flags.hostname = false := by rw [f1, hhost]
        have c3 : flags.ssid_ap = false := by rw [f2, hssid]
        rw [if_pos ⟨by simp [c1], by simp [c2], by simp [c3]⟩]

/-- The store of the C5 counterexample: a parseable station IP, a hostname
and an SSID row. -/
def c5Rows : List CsvRow :=
  [⟨"ip_sta", "data", "string", "192.168.50.10"⟩,
   ⟨"wifi_hostname", "data", "string", "Drone"⟩,
   ⟨"ssid_ap", "data", "string", "SSIDDrone"⟩]

set_option maxRecDepth 4000 in
/-- Counterexample to claim C5: no override is given and the current IP
value parses, yet the pass fails — index 999 makes the substituted address
`192.168.50.999` invalid and the source returns `False`, although hostname
and SSID rows were present and would have updated. -/
theorem update_parameters_fails_on_valid_ip_large_index :
    validate_ip "192.168.50.10" = true
    ∧ db_csv_update_parameters c5Rows 999 none none none = none := by
  decide

/-- The store of the C8 counterexample. -/
def c8Rows : List CsvRow :=
  [⟨"ip_sta", "data", "string", "192.168.50.10"⟩,
   ⟨"wifi_hostname", "data", "string", "Drone"⟩]

set_option maxRecDepth 4000 in
/-- Counterexample to claim C8: with no override, index 300 and the
parseable current value `192.168.50.10`, the claim predicts the last octet
is replaced (`192.168.50.300`); the source instead fails the whole pass,
rewriting nothing. -/
theorem index_assignment_fails_on_index_300 :
    validate_ip "192.168.50.10" = true
    ∧ db_csv_update_parameters c8Rows 300 none none none = none := by
  decide

/-- How one successful loop iteration with no overrides rewrites its row. -/
lemma updOneRow_shape (i : Int) (flags : UpdFlags) (r : CsvRow)
    (flags' : UpdFlags) (r' : CsvRow)
    (h : updOneRow i none none none flags r = some (flags', r')) :
    r'.key = r.key ∧ r'.type = r.type ∧ r'.encoding = r.encoding
    ∧ (r.key = "ip_sta" →
        (validate_ip r.value = true → r'.value = ipSubst r.value i)
        ∧ (validate_ip r.value = false → r' = r))
    ∧ (r.key = "wifi_hostname" →
        r'.value = strDropRightWhile r.value Char.isDigit ++ toString i)
    ∧ (r.key = "ssid_ap" →
        r'.value = strDropRightWhile r.value Char.isDigit ++ toString i)
    ∧ (r.key ≠ "ip_sta" → r.key ≠ "wifi_hostname" → r.key ≠ "ssid_ap" → r' = r) := by
  unfold updOneRow at h
  by_cases hk : r.key = "ip_sta"
  · rcases hv : validate_ip r.value with _ | _
    · simp [hk, hv] at h
      simp [← h.2, hk, hv]
    · rcases hs : validate_ip (ipSubst r.value i) with _ | _
      · simp [hk, hv, hs] at h
      · simp [hk, hv, hs] at h
        simp [← h.2, hk, hv]
  · by_cases h2 : r.key = "wifi_hostname"
    · simp [hk, h2] at h
      simp [← h.2, hk, h2]
    · by_cases h3 : r.key = "ssid_ap"
      · simp [hk, h2, h3] at h
        simp [← h.2, hk, h2, h3]
      · simp [hk, h2, h3] at h
        simp [← h.2, hk, h2, h3]

/-- The row-wise relation claim C8 asserts between the input store and the
rewritten store, for index assignment with no overrides. -/
def IndexRewrite (i : Int) (r r' : CsvRow) : Prop :=
  r'.key = r.key ∧ r'.type = r.type ∧ r'.encoding = r.encoding
  ∧ (r.key = "ip_sta" →
      (validate_ip r.value = true → r'.value = ipSubst r.value i)
      ∧ (validate_ip r.value = false → r' = r))
  ∧ (r.key = "wifi_hostname" →
      r'.value = strDropRightWhile r.value Char.isDigit ++ toString i)
  ∧ (r.key = "ssid_ap" →
      r'.value = strDropRightWhile r.value Char.isDigit ++ toString i)
  ∧ (r.key ≠ "ip_sta" → r.key ≠ "wifi_hostname" → r.key ≠ "ssid_ap" → r' = r)

/-- A successful loop with no overrides rewrites the rows pointwise. -/
lemma updRows_forall₂ (i : Int) :
    ∀ (rows : List CsvRow) (flags : UpdFlags) (out : UpdFlags × List CsvRow),
    updRows i none none none flags rows = some out →
    List.Forall₂ (IndexRewrite i) rows out.2 := by
  intro rows
  induction rows with
  | nil =>
    intro flags out h
    simp [updRows] at h
    subst h
    exact List.Forall₂.nil
  | cons r rs ih =>
    intro flags out h
    rcases h1 : updOneRow i none none none flags r with _ | ⟨flags', r'⟩
    · rw [updRows, h1] at h; exact absurd h (by simp)
    · rw [updRows, h1] at h
      replace h : (match updRows i none none none flags' rs with
          | none => none
          | some (flags'', rs') => some (flags'', r' :: rs')) = some out := h
      rcases h2 : updRows i none none none flags' rs with _ | q
      · rw [h2] at h; exact absurd h (by simp)
      · rw [h2] at h
        simp at h
        subst h
        exact List.Forall₂.cons (updOneRow_shape i flags r flags' r' h1) (ih flags' q h2)

/-- Claim C8, amended: with no overrides, a successful pass rewrites every
`ip_sta` row with a parseable value by replacing its last dot-separated
field with the index, leaves an unparseable `ip_sta` row untouched (and the
final flag reports it not updated), strips trailing digits and appends the
index on every `wifi_hostname` and `ssid_ap` row, and touches nothing else;
when the substituted address is invalid the pass fails instead (see the
counterexample). -/
theorem index_assignment_rewrites (rows : List CsvRow) (index : Int)
    (rows' : List CsvRow) (flags : UpdFlags)
    (h : db_csv_update_parameters rows index none none none = some (rows', flags)) :
    List.Forall₂ (IndexRewrite index) rows rows'
    ∧ flags.ip = finalIpFlag rows none := by
  unfold db_csv_update_parameters at h
  rcases h0 : updRows index none none none ⟨false, false, false⟩ rows
    with _ | ⟨flags0, rows0⟩
  · rw [h0] at h; exact absurd h (by simp)
  · rw [h0] at h
    replace h : (if ¬flags0.ip ∧ ¬flags0.hostname ∧ ¬flags0.ssid_ap then none
        else some (rows0, flags0)) = some (rows', flags) := h
    split at h
    · exact absurd h (by simp)
    · simp at h
      rcases h with ⟨hrows, hflags⟩
      constructor
      · rw [← hrows]
        exact updRows_forall₂ index rows ⟨false, false, false⟩ (flags0, rows0) h0
      · rw [← hflags]
        have hfl := updRows_flags index none none none rows
          ⟨false, false, false⟩ (flags0, rows0) h0
        simp only [Bool.false_or] at hfl
        have hfold := foldl_if_getLast (fun r : CsvRow => r.key = "ip_sta")
          (fun r => (none : Option String).isSome || validate_ip r.value) rows false
        rw [hfl.2.2, hfold]
        unfold finalIpFlag
        rcases hgl : (rows.filter (fun r => r.key = "ip_sta")).getLast? with _ | r
        · rw [hgl]
        · rw [hgl]

/-- The concrete store of the C8 witness (the spec's own examples). -/
def c8wRows : List CsvRow :=
  [⟨"ip_sta", "data", "string", "192.168.50.10"⟩,
   ⟨"wifi_hostname", "data", "string", "Drone10"⟩,
   ⟨"ssid_ap", "data", "string", "SSIDDrone34"⟩]

/-- The rewritten store of the C8 witness at index 3. -/
def c8wOut : List CsvRow :=
  [⟨"ip_sta", "data", "string", "192.168.50.3"⟩,
   ⟨"wifi_hostname", "data", "string", "Drone3"⟩,
   ⟨"ssid_ap", "data", "string", "SSIDDrone3"⟩]

set_option maxRecDepth 4000 in
/-- Witness for the amended C8 at the spec's example store: index 3 turns
`192.168.50.10` into `192.168.50.3`, `Drone10` into `Drone3` and
`SSIDDrone34` into `SSIDDrone3`. -/
theorem index_assignment_rewrites_witness :
    db_csv_update_parameters c8wRows 3 none none none
      = some (c8wOut, ⟨true, true, true⟩)
    ∧ List.Forall₂ (IndexRewrite 3) c8wRows c8wOut :=
  ⟨by decide,
   (index_assignment_rewrites c8wRows 3 c8wOut ⟨true, true, true⟩ (by decide)).1⟩

/-! ## Claim C6: config merge -/

/-- Field equations of one CSV reading iteration. -/
lemma readRowStep_fields (acc : ReadAcc) (row : CsvRow) :
    (readRowStep acc row).rows
      = acc.rows ++ (if pyStrip row.key = "" then [] else [row])
    ∧ (readRowStep acc row).params
      = (if pyStrip row.key = "" then acc.params
         else if pyStrip row.type = "namespace" then acc.params
         else dictInsert acc.params (pyStrip row.key) row) := by
  unfold readRowStep
  split_ifs <;> simp_all

/-- Inserting into a Python dict leaves the key set plus the new key. -/
lemma dictInsert_mem_fst (d : List (String × CsvRow)) (k : String) (v : CsvRow)
    (k' : String) :
    k' ∈ (dictInsert d k v).map Prod.fst ↔ k' ∈ d.map Prod.fst ∨ k' = k := by
  unfold dictInsert
  split_ifs with h
  · rw [List.map_map]
    have hmap : d.map (Prod.fst ∘ fun p => if p.1 == k then (k, v) else p)
        = d.map Prod.fst := by
      apply List.map_congr_left
      intro p _
      by_cases hp : p.1 == k
      · simp only [Function.comp_apply, hp, if_true]
        exact (eq_of_beq hp).symm
      · have hne : p.1 ≠ k := by simpa using hp
        simp [Function.comp_apply, hne]
    rw [hmap]
    constructor
    · exact Or.inl
    · rintro (hm | he)
      · exact hm
      · rcases List.any_eq_true.1 h with ⟨p, hp, hpk⟩
        rw [he]
        rw [← eq_of_beq hpk]
        exact List.mem_map_of_mem Prod.fst hp
  · simp [List.mem_append]

/-- Keys of the params dict built by the reading loop: the data keys. -/
lemma readParams_keys_mem (k : String) :
    ∀ (rows : List CsvRow) (acc : ReadAcc),
    (k ∈ (rows.foldl readRowStep acc).params.map Prod.fst) ↔
      (k ∈ acc.params.map Prod.fst ∨ k ∈ dataKeys rows) := by
  intro rows
  induction rows with
  | nil => intro acc; simp [dataKeys]
  | cons r rs ih =>
    intro acc
    rw [List.foldl_cons, ih]
    have hp := (readRowStep_fields acc r).2
    have hdk : dataKeys (r :: rs)
        = (if pyStrip r.key = "" then [] else
            if pyStrip r.type = "namespace" then [] else [pyStrip r.key])
          ++ dataKeys rs := by
      unfold dataKeys
      rw [List.filter_cons]
      split_ifs with h1 h2 <;> simp_all
    rw [hp, hdk]
    split_ifs with h1 h2
    · simp
    · simp
    · rw [dictInsert_mem_fst]
      simp only [List.mem_append, List.mem_singleton]
      tauto

/-- The row list collected by the reading loop: the kept rows, in order. -/
lemma readParams_rows :
    ∀ (rows : List CsvRow) (acc : ReadAcc),
    (rows.foldl readRowStep acc).rows = acc.rows ++ keptRows rows := by
  intro rows
  induction rows with
  | nil => intro acc; simp [keptRows]
  | cons r rs ih =>
    intro acc
    rw [List.foldl_cons, ih, (readRowStep_fields acc r).1]
    unfold keptRows
    rw [List.filter_cons]
    split_ifs with h1 <;> simp_all

/-- An association-list lookup succeeds exactly on the key set. -/
lemma lookup_isSome_iff (k : String) :
    ∀ (d : List (String × CsvRow)),
    (List.lookup k d).isSome = true ↔ k ∈ d.map Prod.fst := by
  intro d
  induction d with
  | nil => simp [List.lookup]
  | cons p ps ih =>
    rw [List.lookup]
    by_cases h : k == p.1
    · simp only [h, if_true]
      refine iff_of_true rfl ?_
      rw [eq_of_beq h]
      exact List.mem_map_of_mem Prod.fst (List.mem_cons_self p ps)
    · simp only [h, Bool.false_eq_true, if_false]
      rw [ih]
      have hne : k ≠ p.1 := by simpa using h
      simp [hne]

/-- The merge function, with its `let` bindings written out. -/
lemma merge_eq (u r : List CsvRow) :
    db_csv_merge_user_parameters_with_release u r
      = ((readParams r).rows.map (fun row =>
            match List.lookup (pyStrip row.key) (readParams u).params with
            | some ur => { row with value := ur.value }
            | none => row),
         ((readParams r).params.map Prod.fst).filter
           (fun k => !((readParams u).params.map Prod.fst).contains k),
         ((readParams u).params.map Prod.fst).filter
           (fun k => !((readParams r).params.map Prod.fst).contains k)) := rfl

/-- Membership in a key list is what `contains` tests. -/
lemma contains_eq_mem_strings (l : List String) (k : String) :
    l.contains k = true ↔ k ∈ l := by
  induction l with
  | nil => simp
  | cons a as ih =>
    by_cases h : k = a
    · subst h
      simp [List.contains_cons]
    · simp [List.contains_cons, ih, h]

/-- Claim C6: the merged configuration is exactly the kept release rows —
same keys, same order, same types and encodings — with the value taken
from the user template whenever the user parameter dict holds the key and
the release default otherwise; the user dict holds exactly the user data
keys; the `missing` report is exactly the release data keys absent from
the user's, and the `obsolete` report exactly the user data keys absent
from the release's. -/
theorem merge_spec (userRows releaseRows : List CsvRow) :
    (db_csv_merge_user_parameters_with_release userRows releaseRows).1.map CsvRow.key
      = (keptRows releaseRows).map CsvRow.key
    ∧ List.Forall₂ (fun r m =>
        m.key = r.key ∧ m.type = r.type ∧ m.encoding = r.encoding ∧
        m.value = (match List.lookup (pyStrip r.key) (readParams userRows).params with
                   | some ur => ur.value
                   | none => r.value))
        (keptRows releaseRows)
        (db_csv_merge_user_parameters_with_release userRows releaseRows).1
    ∧ (∀ k, (List.lookup k (readParams userRows).params).isSome = true
        ↔ k ∈ dataKeys userRows)
    ∧ (∀ k, k ∈ (db_csv_merge_user_parameters_with_release userRows releaseRows).2.1
        ↔ (k ∈ dataKeys releaseRows ∧ k ∉ dataKeys userRows))
    ∧ (∀ k, k ∈ (db_csv_merge_user_parameters_with_release userRows releaseRows).2.2
        ↔ (k ∈ dataKeys userRows ∧ k ∉ dataKeys releaseRows)) := by
  have hrows : (readParams releaseRows).rows = keptRows releaseRows := by
    rw [readParams, readParams_rows releaseRows ⟨[], [], []⟩]
    rfl
  have hukeys : ∀ k, k ∈ (readParams userRows).params.map Prod.fst
      ↔ k ∈ dataKeys userRows := by
    intro k
    rw [readParams, readParams_keys_mem k userRows ⟨[], [], []⟩]
    simp
  have hrkeys : ∀ k, k ∈ (readParams releaseRows).params.map Prod.fst
      ↔ k ∈ dataKeys releaseRows := by
    intro k
    rw [readParams, readParams_keys_mem k releaseRows ⟨[], [], []⟩]
    simp
  rw [merge_eq]
  refine ⟨?_, ?_, ?_, ?_, ?_⟩
  · rw [hrows, List.map_map]
    apply List.map_congr_left
    intro row _
    rcases hl : List.lookup (pyStrip row.key) (readParams userRows).params
      with _ | ur <;> simp [hl]
  · rw [hrows]
    rw [List.forall₂_map_right_iff]
    rw [List.forall₂_same]
    intro row _
    rcases hl : List.lookup (pyStrip row.key) (readParams userRows).params
      with _ | ur <;> simp [hl]
  · intro k
    rw [lookup_isSome_iff k]
    exact hukeys k
  · intro k
    rw [List.mem_filter]
    constructor
    · rintro ⟨hm, hc⟩
      refine ⟨(hrkeys k).1 hm, ?_⟩
      intro hku
      rw [Bool.not_eq_eq_eq_not] at hc
      simp only [Bool.not_true] at hc
      rw [← (hukeys k), ← contains_eq_mem_strings] at hku
      rw [hku] at hc
      exact absurd hc (by simp)
    · rintro ⟨hm, hnk⟩
      refine ⟨(hrkeys k).2 hm, ?_⟩
      rcases hcontains : ((readParams userRows).params.map Prod.fst).contains k
        with _ | _
      · rfl
      · exact absurd ((hukeys k).1 ((contains_eq_mem_strings _ k).1 hcontains)) hnk
  · intro k
    rw [List.mem_filter]
    constructor
    · rintro ⟨hm, hc⟩
      refine ⟨(hukeys k).1 hm, ?_⟩
      intro hkr
      rw [Bool.not_eq_eq_eq_not] at hc
      simp only [Bool.not_true] at hc
      rw [← (hrkeys k), ← contains_eq_mem_strings] at hkr
      rw [hkr] at hc
      exact absurd hc (by simp)
    · rintro ⟨hm, hnk⟩
      refine ⟨(hukeys k).2 hm, ?_⟩
      rcases hcontains : ((readParams releaseRows).params.map Prod.fst).contains k
        with _ | _
      · rfl
      · exact absurd ((hrkeys k).1 ((contains_eq_mem_strings _ k).1 hcontains)) hnk
